import Mathlib

/-!
Verification of the pouchdb-mapreduce view engine (src/index.js, second —
current — revision of the file, the one the specification describes).

JSON-ish values are embedded with integer-valued numbers (the claims under
study exercise only integers; IEEE doubles agree with exact integer
arithmetic on them).  External collaborators (pouchdb-collate's `collate`,
`normalizeKey`, `toIndexableString`; the secondary store's `allDocs`) are
modelled from the specification, as noted on each definition.
-/

namespace MapReduce

/-- JSON-ish runtime values.  `err` represents a JavaScript `Error` instance
carrying own properties (the built-in `_stats` reducer produces such values);
it behaves like an object except for `instanceof Error` tests. -/
inductive Js where
  | null : Js
  | bool : Bool → Js
  | num : Int → Js
  | str : String → Js
  | arr : List Js → Js
  | obj : List (String × Js) → Js
  | err : List (String × Js) → Js
  deriving Repr, Inhabited

/-- JavaScript truthiness for the embedded values
(`null`, `false`, `0`, `""` are falsy; every object/array is truthy). -/
def Js.truthy : Js → Bool
  | .null => false
  | .bool b => b
  | .num n => n != 0
  | .str s => s ≠ ""
  | .arr _ => true
  | .obj _ => true
  | .err _ => true

/-- Property lookup `v.f`: a field of an object or of an Error instance;
`none` models JavaScript `undefined`. -/
def Js.getField : Js → String → Option Js
  | .obj fields, f => fields.lookup f
  | .err fields, f => fields.lookup f
  | _, _ => none

/-- `v instanceof Error` for the embedded values. -/
def Js.isErrorInstance : Js → Bool
  | .err _ => true
  | _ => false

/-- Type-class rank of CouchDB collation (spec §4.1):
`null < false < true < number < string < array < object`.
Error instances collate like the objects they are. -/
def Js.rank : Js → Nat
  | .null => 0
  | .bool false => 1
  | .bool true => 2
  | .num _ => 3
  | .str _ => 4
  | .arr _ => 5
  | .obj _ => 6
  | .err _ => 6

/-- Code-point comparison of strings (spec §4.1 baseline string order). -/
def strCompare (a b : String) : Int :=
  go a.data b.data
where
  go : List Char → List Char → Int
    | [], [] => 0
    | [], _ :: _ => -1
    | _ :: _, [] => 1
    | x :: xs, y :: ys =>
      if x.val < y.val then -1
      else if y.val < x.val then 1
      else go xs ys

mutual

/-- Modelled from the spec (§4.1): `collate` of the external pouchdb-collate
package, which src/index.js treats as a black box.  Total order over JSON
values: type classes ranked as in `Js.rank`; numbers numerically; strings by
code point; arrays lexicographically elementwise; objects by (key, value)
pairs in order, shorter sequence first. -/
def collate (a b : Js) : Int :=
  if a.rank < b.rank then -1
  else if b.rank < a.rank then 1
  else
    match a, b with
    | .num x, .num y => if x < y then -1 else if y < x then 1 else 0
    | .str x, .str y => strCompare x y
    | .arr x, .arr y => collateList x y
    | .obj x, .obj y => collatePairs x y
    | .obj x, .err y => collatePairs x y
    | .err x, .obj y => collatePairs x y
    | .err x, .err y => collatePairs x y
    | _, _ => 0
termination_by sizeOf a
decreasing_by all_goals simp_wf

/-- Elementwise lexicographic collation of arrays, shorter prefix first. -/
def collateList (a b : List Js) : Int :=
  match a, b with
  | [], [] => 0
  | [], _ :: _ => -1
  | _ :: _, [] => 1
  | x :: xs, y :: ys =>
    let c := collate x y
    if c = 0 then collateList xs ys else c
termination_by sizeOf a
decreasing_by all_goals (simp_wf <;> omega)

/-- Pairwise collation of object fields in insertion order, shorter first. -/
def collatePairs (a b : List (String × Js)) : Int :=
  match a, b with
  | [], [] => 0
  | [], _ :: _ => -1
  | _ :: _, [] => 1
  | (k₁, v₁) :: xs, (k₂, v₂) :: ys =>
    let ck := strCompare k₁ k₂
    if ck = 0 then
      let cv := collate v₁ v₂
      if cv = 0 then collatePairs xs ys else cv
    else ck
termination_by sizeOf a
decreasing_by all_goals (simp_wf <;> omega)

end

/-- Modelled from the spec (§4.1): pouchdb-collate's `normalizeKey`
canonicalizes `NaN`/`Infinity` to `null` and `-0` to `0`, recursing
structurally.  None of those values exist in this integer-valued embedding,
so normalization is the identity here. -/
def normalizeKey (v : Js) : Js := v

mutual

/-- Modelled from the spec (§4.1): a concrete instance of pouchdb-collate's
`toIndexableString` tag-per-type scheme, used to instantiate witnesses.  The
exact bytes are implementation-defined by the spec; the theorems below are
proved for an arbitrary encoder and only evaluated at this one. -/
def tsm : Js → String
  | .null => "1"
  | .bool false => "2"
  | .bool true => "3"
  | .num n => "4" ++ toString n ++ ";"
  | .str s => "5" ++ s ++ "\x00"
  | .arr l => "6" ++ tsmList l ++ "\x00"
  | .obj ps => "7" ++ tsmPairs ps ++ "\x00"
  | .err ps => "7" ++ tsmPairs ps ++ "\x00"
termination_by v => sizeOf v
decreasing_by all_goals simp_wf

/-- Concatenated encodings of array elements. -/
def tsmList : List Js → String
  | [] => ""
  | x :: xs => tsm x ++ tsmList xs
termination_by l => sizeOf l
decreasing_by all_goals (simp_wf <;> omega)

/-- Concatenated encodings of alternating object keys and values. -/
def tsmPairs : List (String × Js) → String
  | [] => ""
  | (k, v) :: xs => tsm (.str k) ++ tsm v ++ tsmPairs xs
termination_by l => sizeOf l
decreasing_by all_goals (simp_wf <;> omega)

end

/-! ## Data model of the query path (src/index.js, current revision) -/

/-- A materialized view row / persisted key-value record `value` field:
`{id, key, value, reduceOutput?}` (spec §3), plus the `doc` field the
`include_docs` join may attach.  Optional fields model absent JavaScript
properties. -/
structure Row where
  id : Option String := none
  key : Js := .null
  value : Js := .null
  reduceOutput : Option Js := none
  doc : Option Js := none
  deriving Repr

/-- User query options as read by `queryIndexInner`, `checkQueryParseError`
and `reduceIndex`.  Boolean fields model JavaScript truthiness of the
corresponding option; `reduce` keeps the raw value because the code tests
`opts.reduce !== false` (strict comparison). -/
structure QueryOpts where
  startkey : Option Js := none
  endkey : Option Js := none
  key : Option Js := none
  keys : Option (List Js) := none
  descending : Bool := false
  limit : Option Nat := none
  skip : Nat := 0
  reduce : Option Js := none
  include_docs : Bool := false
  group : Bool := false
  group_level : Option Int := none

/-- Options handed to the secondary store's `allDocs` scan
(`indexOpts` in `queryIndexInner`). -/
structure IndexOpts where
  startkey : Option String := none
  endkey : Option String := none
  descending : Bool := false
  limit : Option Nat := none
  skip : Nat := 0

/-- The process-local index handle (`Index`, src/index.js lines 1655-1662),
restricted to what the query path reads.  `reduceFun` is the resolved reduce
function — `none` when no reducer is configured; the resolution of a builtin
name or user source to a function (lines 1310-1318) is modelled by storing
the resolved function directly, with signature `(keys, values, rereduce)`. -/
structure IndexModel where
  reduceFun : Option (Js → List Js → Bool → Js) := none

/-- The strict comparison `opts.reduce !== false` (used at lines 848 and
1347). -/
def reduceNotStrictFalse (reduce : Option Js) : Bool :=
  match reduce with
  | some (.bool false) => false
  | _ => true

/-- `index.reduceFun && opts.reduce !== false` (line 1347). -/
def shouldReduce (index : IndexModel) (opts : QueryOpts) : Bool :=
  index.reduceFun.isSome && reduceNotStrictFalse opts.reduce

/-- A successful query result.  `total_rows` and `offset` are optional
because the reduce-path result objects are built without them. -/
structure QueryResult where
  total_rows : Option Nat := none
  offset : Option Nat := none
  rows : List Row := []
  deriving Repr

/-- `QueryParseError` (src/index.js lines 1664-1669): `status` 400, `name`
`query_parse_error`, `error: true`. -/
structure QueryParseError where
  status : Nat := 400
  name : String := "query_parse_error"
  message : String
  error : Bool := true
  deriving Repr

/-- The error object as a JSON-ish value, for the query pipeline's error
channel. -/
def QueryParseError.toJs (e : QueryParseError) : Js :=
  .err [("status", .num e.status), ("name", .str e.name),
        ("message", .str e.message), ("error", .bool e.error)]

/-- The message of the inverted-range rejection (lines 846-847). -/
def rangeErrMsg : String :=
  "No rows can match your key range, reverse your " ++
  "start_key and end_key or set \x7bdescending : true\x7d"

/-- The message of the `include_docs`-with-reduce rejection (line 849). -/
def includeDocsErrMsg : String :=
  "\x7binclude_docs:true\x7d is invalid for reduce"

/-- The second test of `checkQueryParseError` (line 848):
`fun.reduce && options.reduce !== false && options.include_docs`. -/
def includeDocsReduceCheck (options : QueryOpts) (funHasReduce : Bool) :
    Option QueryParseError :=
  if funHasReduce && reduceNotStrictFalse options.reduce && options.include_docs then
    some { message := includeDocsErrMsg }
  else none

/-- `checkQueryParseError` (src/index.js lines 839-851): with `descending`
the roles of `startkey`/`endkey` swap; an inverted range or
`include_docs` with an effective reducer is rejected. -/
def checkQueryParseError (options : QueryOpts) (funHasReduce : Bool) :
    Option QueryParseError :=
  match (if options.descending then options.endkey else options.startkey),
        (if options.descending then options.startkey else options.endkey) with
  | some s, some e =>
    if collate s e > 0 then some { message := rangeErrMsg }
    else includeDocsReduceCheck options funHasReduce
  | _, _ => includeDocsReduceCheck options funHasReduce

/-- The scan-bound planning of `queryIndexInner`'s keyless branch
(src/index.js lines 1448-1472), parameterized by the external
`toIndexableString` codec `ts`.  A `startkey` bound becomes `ts [b]`
(ascending) or `ts [b, {}, {}, {}]` (descending); `endkey` symmetrically;
a `key` option overwrites both bounds. -/
def planIndexOpts (ts : Js → String) (opts : QueryOpts) : IndexOpts :=
  let io : IndexOpts := { descending := opts.descending }
  let io :=
    match opts.startkey with
    | some b =>
      { io with startkey := some (if opts.descending then
          ts (.arr [b, .obj [], .obj [], .obj []]) else ts (.arr [b])) }
    | none => io
  let io :=
    match opts.endkey with
    | some b =>
      { io with endkey := some (if opts.descending then
          ts (.arr [b]) else ts (.arr [b, .obj [], .obj [], .obj []])) }
    | none => io
  match opts.key with
  | some k =>
    let keyStart := ts (.arr [k])
    let keyEnd := ts (.arr [k, .obj [], .obj [], .obj []])
    if io.descending then { io with endkey := some keyStart, startkey := some keyEnd }
    else { io with startkey := some keyStart, endkey := some keyEnd }
  | none => io

/-- Modelled from the spec (§6): the secondary store's `allDocs`, an external
PouchDB operation.  `store` is the store's content in its lexicographic key
order; the scan applies the inclusive bounds, direction, `skip` and `limit`. -/
def allDocsScan (store : List (String × Row)) (o : IndexOpts) :
    List (String × Row) :=
  let docs := if o.descending then store.reverse else store
  let docs := docs.filter fun d =>
    (match o.startkey with
     | none => true
     | some sk => if o.descending then decide (d.1 ≤ sk) else decide (sk ≤ d.1)) &&
    (match o.endkey with
     | none => true
     | some ek => if o.descending then decide (ek ≤ d.1) else decide (d.1 ≤ ek))
  let docs := docs.drop o.skip
  match o.limit with
  | some n => docs.take n
  | none => docs

/-- `fetchFromIndex` (src/index.js lines 1354-1366): scan the secondary
store and keep each row document's `value` field; `total_rows` is the
store's total document count. -/
def fetchFromIndex (store : List (String × Row)) (o : IndexOpts) :
    Nat × List Row :=
  (store.length, (allDocsScan store o).map (·.2))

/-! ## Grouping and reduction -/

/-- A group accumulated by `reduceIndex` / `viewQuery`'s `checkComplete`:
`key` holds the `[key, id]` pairs of its members, `values` the collected
values. -/
structure Group where
  keyEntries : List (Js × Option String)
  values : List Js

/-- JavaScript truthiness of the `group_level` option (`0` is falsy). -/
def groupLevelTruthy : Option Int → Bool
  | some n => n != 0
  | none => false

/-- The grouping walk shared by `reduceIndex` (lines 1291-1305) and
`viewQuery`'s `checkComplete` (lines 965-977): a row joins the last group
when `collate(last.key[0][0], key) == 0`, where `key` is the row's key when
grouping and `null` otherwise; `val` selects what each row contributes
(`e.reduceOutput` on the persisted path, `e.value` on the temporary path). -/
def buildGroups (shouldGroup : Bool) (val : Row → Js) (results : List Row) :
    List Group :=
  results.foldl
    (fun groups e =>
      let key := if shouldGroup then e.key else Js.null
      match groups.getLast? with
      | some last =>
        if collate (last.keyEntries.headD (.null, none)).1 key = 0 then
          groups.dropLast ++
            [{ keyEntries := last.keyEntries ++ [(key, e.id)],
               values := last.values ++ [val e] }]
        else
          groups ++ [{ keyEntries := [(key, e.id)], values := [val e] }]
      | none => [{ keyEntries := [(key, e.id)], values := [val e] }])
    []

/-- The slicing `('limit' in options) ? l.slice(skip, limit + skip) :
(skip > 0) ? l.slice(skip) : l` applied to final row lists. -/
def sliceRows (l : List Row) (skip : Nat) (limit : Option Nat) : List Row :=
  match limit with
  | some n => (l.drop skip).take n
  | none => l.drop skip

/-- The error test of `reduceIndex` (line 1321):
`e.value.sumsqr && e.value.sumsqr.status === 500`. -/
def reduceErrorCheck (v : Js) : Bool :=
  match v.getField "sumsqr" with
  | some s =>
    s.truthy && (match s.getField "status" with
                 | some (.num 500) => true
                 | _ => false)
  | none => false

/-- Per-group value of `reduceIndex` (lines 1307-1319): a single collected
value is returned as-is (the stored `reduceOutput`); otherwise the reducer
is called as `reduceFun(null, values, true)` — a rereduce. -/
def reduceGroupValue (rf : Js → List Js → Bool → Js) (g : Group) : Js :=
  match g.values with
  | [v] => v
  | vs => rf .null vs true

/-- `reduceIndex` (src/index.js lines 1282-1336): group the scanned rows,
rereduce the stored `reduceOutput`s of each group, fail with the last group
value whose `sumsqr` field is truthy with `status === 500`, and otherwise
answer `{rows}` with no `total_rows` and no `offset`.  Rows lacking a
`reduceOutput` contribute JavaScript `undefined` (modelled as `null`); the
persisted path only reaches here for indices built with a reducer, whose
rows all carry one.  `reduceIndex` is likewise only invoked when a reducer
is configured, so the resolved function is present. -/
def reduceIndex (index : IndexModel) (results : List Row)
    (options : QueryOpts) : Except Js QueryResult :=
  let shouldGroup := options.group || groupLevelTruthy options.group_level
  let rf := index.reduceFun.getD (fun _ _ _ => .null)
  let groups := buildGroups shouldGroup (fun r => r.reduceOutput.getD .null) results
  let evaluated := groups.map fun g => (g, reduceGroupValue rf g)
  match (evaluated.filter fun p => reduceErrorCheck p.2).getLast? with
  | some p => .error p.2
  | none =>
    .ok { rows := sliceRows
            (evaluated.map fun p =>
              { key := (p.1.keyEntries.headD (.null, none)).1, value := p.2 })
            options.skip options.limit }

/-! ## Query executor -/

/-- The `include_docs` join id (lines 1387-1388):
`(val && typeof val === 'object' && val._id) || viewRow.id`.  A truthy
non-string `_id` would be handed to `sourceDB.get` as-is; only string ids
are in the model's domain. -/
def joinDocId (r : Row) : String :=
  let viaValue : Option String :=
    match r.value with
    | .obj _ | .err _ =>
      match r.value.getField "_id" with
      | some (.str s) => if s ≠ "" then some s else none
      | _ => none
    | _ => none
  viaValue.getD (r.id.getD "")

/-- `onMapResultsReady` (src/index.js lines 1368-1402): reduce when a
reducer is in effect; otherwise delete every row's `reduceOutput`, join
source documents when `include_docs` is set and rows exist (a missing
document attaches nothing), and answer `{total_rows, offset, rows}`. -/
def onMapResultsReady (index : IndexModel) (opts : QueryOpts) (sr : Bool)
    (skip totalRows : Nat) (sourceGet : String → Option Js)
    (results : List Row) : Except Js QueryResult :=
  if sr then reduceIndex index results opts
  else
    let rows := results.map fun r => { r with reduceOutput := none }
    let rows :=
      if opts.include_docs && !rows.isEmpty then
        rows.map fun r =>
          match sourceGet (joinDocId r) with
          | some d => { r with doc := some d }
          | none => r
      else rows
    .ok { total_rows := some totalRows, offset := some skip, rows := rows }

/-- `queryIndexInner` without a nonempty `keys` option (src/index.js lines
1344-1352 and 1446-1487): an empty `keys` array is normalized to `limit: 0`
with `keys` removed; bounds are planned, `limit`/`skip` reach the scan only
when not reducing, and the scan results go to `onMapResultsReady`.  (The
branch for a nonempty `keys` array, lines 1404-1445, is a separate code
path not exercised by the claims under study.) -/
def queryIndexNoKeys (ts : Js → String) (index : IndexModel)
    (opts0 : QueryOpts) (store : List (String × Row))
    (sourceGet : String → Option Js) : Except Js QueryResult :=
  let sr := shouldReduce index opts0
  let skip := opts0.skip
  let opts :=
    match opts0.keys with
    | some [] => { opts0 with limit := some 0, keys := none }
    | _ => opts0
  let io := planIndexOpts ts opts
  let io := if !sr then { io with limit := opts.limit, skip := skip } else io
  let fetched := fetchFromIndex store io
  onMapResultsReady index opts sr skip fetched.1 sourceGet fetched.2

/-- The persisted-view query pipeline of `exports.query` (src/index.js lines
1618-1643): `checkQueryParseError` runs before the index is opened, updated
or scanned; only when it passes does the executor run.  The store contents
(post-update) and the source DB are parameters. -/
def queryPersisted (ts : Js → String) (index : IndexModel)
    (opts : QueryOpts) (store : List (String × Row))
    (sourceGet : String → Option Js) : Except Js QueryResult :=
  match checkQueryParseError opts index.reduceFun.isSome with
  | some e => .error e.toJs
  | none => queryIndexNoKeys ts index opts store sourceGet

/-! ## Temporary-view completion -/

/-- The error test of `viewQuery`'s `checkComplete` (line 980):
`e.value.sumsqr && e.value.sumsqr instanceof Error`. -/
def tempErrorCheck (v : Js) : Bool :=
  match v.getField "sumsqr" with
  | some s => s.truthy && s.isErrorInstance
  | none => false

/-- The `keys` argument of the temporary path's reducer call: the group's
accumulated `[key, id]` pairs as a JSON value. -/
def groupKeysJs (g : Group) : Js :=
  .arr (g.keyEntries.map fun p => .arr [p.1, .str (p.2.getD "")])

/-- The `options.reduce === false` test of `viewQuery`'s `checkComplete`
(line 953), after the header normalization `if (!fun.reduce)
options.reduce = false` (lines 859-861): true iff no reducer is configured
or the caller passed literally `false`. -/
def tempReduceIsFalse (funHasReduce : Bool) (opts : QueryOpts) : Bool :=
  !funHasReduce || !reduceNotStrictFalse opts.reduce

/-- The tail of `viewQuery`'s `checkComplete` (src/index.js lines 953-995),
taking the already sorted/reversed row list (the sorting steps of lines
944-951 only permute rows).  With `options.reduce === false` the map-shaped
result carries `total_rows` and `offset`; otherwise rows are grouped, the
reducer is called as `fun.reduce(e.key, e.value)` (the rereduce argument is
absent, hence false), a truthy `sumsqr instanceof Error` fails the query,
and the result is `{rows}` with no `total_rows` and no `offset`. -/
def viewQueryFinish (rf : Js → List Js → Bool → Js) (options : QueryOpts)
    (reduceIsFalse : Bool) (sortedResults : List Row) (totalRows : Nat) :
    Except Js QueryResult :=
  if reduceIsFalse then
    .ok { total_rows := some totalRows, offset := some options.skip,
          rows := sliceRows sortedResults options.skip options.limit }
  else
    let shouldGroup := options.group || groupLevelTruthy options.group_level
    let groups := buildGroups shouldGroup (fun r => r.value) sortedResults
    let evaluated := groups.map fun g => (g, rf (groupKeysJs g) g.values false)
    match (evaluated.filter fun p => tempErrorCheck p.2).getLast? with
    | some p => .error p.2
    | none =>
      .ok { rows := sliceRows
              (evaluated.map fun p =>
                { key := (p.1.keyEntries.headD (.null, none)).1, value := p.2 })
              options.skip options.limit }

/-! ## Incremental updater: the emit loop of `callMapFun` -/

/-- The value stored under a composite indexable key
(`{id, key, value}`, src/index.js lines 1121-1125). -/
structure KvRecord where
  id : String
  key : Js
  value : Js
  deriving Repr

/-- JavaScript object property assignment `m[k] = v`: an existing key is
overwritten in place, a new key is appended. -/
def objAssign (m : List (String × KvRecord)) (k : String) (v : KvRecord) :
    List (String × KvRecord) :=
  if m.any (fun p => p.1 = k) then
    m.map fun p => if p.1 = k then (k, v) else p
  else m ++ [(k, v)]

/-- The `emit` closure of `updateIndexInner.callMapFun` (src/index.js lines
1118-1126), run over the emissions the map function performs in order: the
counter `i` starts at 0 and advances once per call; each call stores
`{id: docId, key: normalizeKey(key), value: normalizeKey(value)}` under
`toIndexableString([key, docId, value, i])` in `indexableKeysToKeyValues`.
`ts` is the external codec. -/
def emitLoop (ts : Js → String) (docId : String) :
    List (Js × Js) → Nat → List (String × KvRecord) → List (String × KvRecord)
  | [], _, m => m
  | (key, value) :: rest, i, m =>
    emitLoop ts docId rest (i + 1)
      (objAssign m (ts (.arr [key, .str docId, value, .num i]))
        { id := docId, key := normalizeKey key, value := normalizeKey value })

/-- `indexableKeysToKeyValues` after the map function returns, given the
emissions it performed. -/
def indexableKeysToKeyValues (ts : Js → String) (docId : String)
    (emits : List (Js × Js)) : List (String × KvRecord) :=
  emitLoop ts docId emits 0 []

/-- The composite key generated for the emit at position `i`. -/
def emitKeyAt (ts : Js → String) (docId : String) (e : Js × Js) (i : Nat) :
    String :=
  ts (.arr [e.1, .str docId, e.2, .num i])

/-- All composite keys generated by a run of the map function, in emit
order. -/
def emitKeys (ts : Js → String) (docId : String) (emits : List (Js × Js)) :
    List String :=
  emits.enum.map fun p => emitKeyAt ts docId p.2 p.1

/-! ## Incremental updater: change processing (`updateIndexInner`) -/

/-- A change-feed record as consumed by `processChange`; `fails` models an
error raised by the secondary store while processing this change (the
per-change reads or the atomic `bulkDocs` batch), in which case nothing of
the change's batch is persisted. -/
structure Change where
  id : String
  seq : Nat
  fails : Bool := false

/-- What `processChange` (src/index.js lines 1242-1259) does with a change:
ids beginning with `_` are skipped (counted finished), a change with
`seq < index.seq` is skipped (without being counted finished), anything
else goes to `callMapFun` — the map function runs and the change's batch is
written. -/
inductive ChangeAction where
  | skipUnderscore
  | skipSeq
  | callMap
  deriving Repr, DecidableEq

/-- The branch `processChange` takes for a change, given the in-memory
`index.seq` at the start of the run (it is only reassigned after the run
completes successfully). -/
def processChangeAction (indexSeq : Nat) (c : Change) : ChangeAction :=
  if c.id.data.head? = some '_' then .skipUnderscore
  else if c.seq < indexSeq then .skipSeq
  else .callMap

/-- The updater's mutable state during one `updateIndexInner` run:
`gotError` and the `lastSeq` variable, the persisted `_local/lastSeq`
(rewritten by each successfully committed per-change batch, lines
1207-1208), and the started/finished task counters. -/
structure UpdState where
  gotError : Bool
  lastSeqVar : Nat
  persistedSeq : Nat
  numStarted : Nat
  numFinished : Nat

/-- One change through `onChange` + `processChange` (src/index.js lines
1242-1259, 1265-1273; the per-update queue serializes the tasks in feed
order).  A successful `callMapFun` batch persists `lastSeq = doc.seq` and
advances the `lastSeq` variable; a failing one sets `gotError` and writes
nothing; processing continues for later changes either way. -/
def processOne (indexSeq : Nat) (s : UpdState) (c : Change) : UpdState :=
  let s := { s with numStarted := s.numStarted + 1 }
  match processChangeAction indexSeq c with
  | .skipUnderscore => { s with numFinished := s.numFinished + 1 }
  | .skipSeq => s
  | .callMap =>
    if c.fails then { s with gotError := true }
    else
      { s with persistedSeq := c.seq,
               lastSeqVar := max s.lastSeqVar c.seq,
               numFinished := s.numFinished + 1 }

/-- The outcome of an `updateIndexInner` run: whether an error was reported
to the caller (`checkComplete`, lines 1227-1237, reports the first error),
whether completion was signalled, the final in-memory `index.seq` and the
final persisted `_local/lastSeq`. -/
structure UpdOutcome where
  reportedError : Bool
  completedOk : Bool
  memSeq : Nat
  persistedSeq : Nat
  deriving Repr, DecidableEq

/-- A full `updateIndexInner` run over the delivered change feed:
fold the changes through `processOne`, then `checkComplete` — an error is
reported (once) if any occurred; otherwise, when every started task also
finished, `index.seq` is set to the `lastSeq` variable and success is
signalled; when counters disagree (a `skipSeq` never increments
`numFinished`) no callback fires and `index.seq` keeps its old value. -/
def runUpdate (indexSeq persisted0 : Nat) (changes : List Change) :
    UpdOutcome :=
  let s := changes.foldl (processOne indexSeq)
    { gotError := false, lastSeqVar := indexSeq, persistedSeq := persisted0,
      numStarted := 0, numFinished := 0 }
  if s.gotError then
    { reportedError := true, completedOk := false,
      memSeq := indexSeq, persistedSeq := s.persistedSeq }
  else if s.numStarted = s.numFinished then
    { reportedError := false, completedOk := true,
      memSeq := s.lastSeqVar, persistedSeq := s.persistedSeq }
  else
    { reportedError := false, completedOk := false,
      memSeq := indexSeq, persistedSeq := s.persistedSeq }

/-! ## Built-in reducers -/

mutual

/-- Elements of an array under `Array.prototype.join`: `null` (and
`undefined`) render as the empty string; nested arrays join recursively. -/
def jsStrElem : Js → String
  | .null => ""
  | .bool b => if b then "true" else "false"
  | .num n => toString n
  | .str s => s
  | .arr l => jsStrJoin l
  | .obj _ => "[object Object]"
  | .err _ => "[object Object]"
termination_by v => sizeOf v
decreasing_by all_goals simp_wf

/-- `Array.prototype.join(',')` over rendered elements. -/
def jsStrJoin : List Js → String
  | [] => ""
  | [x] => jsStrElem x
  | x :: y :: xs => jsStrElem x ++ "," ++ jsStrJoin (y :: xs)
termination_by l => sizeOf l
decreasing_by all_goals (simp_wf <;> omega)

end

/-- JavaScript string rendering of the embedded values as produced by
`ToString`: numbers in decimal, arrays joined with `,`, objects as
`[object Object]`. -/
def jsStr : Js → String
  | .null => "null"
  | .bool b => if b then "true" else "false"
  | .num n => toString n
  | .str s => s
  | .arr l => jsStrJoin l
  | .obj _ => "[object Object]"
  | .err _ => "[object Object]"

/-- `ToPrimitive` of the `+` operator: numbers stay numbers; everything
else (in the domain the engine feeds to `sum`) becomes its string. -/
def jsPrim : Js → Int ⊕ String
  | .num n => .inl n
  | v => .inr (jsStr v)

/-- `ToNumber` for the non-string primitives reachable here. -/
def jsPrimNum : Int ⊕ String → Int
  | .inl n => n
  | .inr _ => 0

/-- Whether a primitive is a string (forcing concatenation). -/
def jsPrimIsStr : Int ⊕ String → Bool
  | .inl _ => false
  | .inr _ => true

/-- Rendering of a primitive for concatenation. -/
def jsPrimStr : Int ⊕ String → String
  | .inl n => toString n
  | .inr s => s

/-- The JavaScript `a + b` of `sum`'s accumulator (src/index.js lines
739-743): if either operand's primitive is a string the result is the
concatenation of both renderings; otherwise numeric addition. -/
def jsAdd (a b : Js) : Js :=
  let pa := jsPrim a
  let pb := jsPrim b
  if jsPrimIsStr pa || jsPrimIsStr pb then .str (jsPrimStr pa ++ jsPrimStr pb)
  else .num (jsPrimNum pa + jsPrimNum pb)

/-- `sum` (src/index.js lines 739-743):
`values.reduce(function (a, b) { return a + b; }, 0)`. -/
def sumJs (values : List Js) : Js :=
  values.foldl jsAdd (.num 0)

/-- The `_count` builtin (src/index.js lines 750-752): `values.length`,
whatever the values are — including on a rereduce call. -/
def countReduce (values : List α) : Nat :=
  values.length

/-- The `_stats` result record; all fields integer-valued in this
embedding (exact for the integer inputs of the theorems below). -/
structure StatsResult where
  sum : Int
  min : Int
  max : Int
  count : Nat
  sumsqr : Int
  deriving Repr, DecidableEq

/-- `Math.min.apply(null, values)` for a nonempty list (on an empty list
JavaScript yields `Infinity`, which has no counterpart here; `_stats` is
applied to nonempty groups). -/
def listMin : List Int → Int
  | [] => 0
  | x :: xs => xs.foldl min x

/-- `Math.max.apply(null, values)` for a nonempty list (empty would be
`-Infinity`). -/
def listMax : List Int → Int
  | [] => 0
  | x :: xs => xs.foldl max x

/-- The inner `sumsqr` helper of `_stats` (src/index.js lines 756-771) on
numeric input: the sum of the squares of the values. -/
def sumsqrHelper (values : List Int) : Int :=
  values.foldl (fun acc v => acc + v * v) 0

/-- The `rereduce: false` branch of `_stats` (src/index.js lines 783-791). -/
def statsReduce (values : List Int) : StatsResult :=
  { sum := values.foldl (· + ·) 0,
    min := listMin values,
    max := listMax values,
    count := values.length,
    sumsqr := sumsqrHelper values }

/-- The `rereduce: true` branch of `_stats` (src/index.js lines 772-782):
`result = values[0]` mutated in a loop; note the `sumsqr` combination is
`sumsqr([result.sumsqr, current.sumsqr])`, which squares the already
squared partial sums.  Never called on an empty list (`values[0]` would be
`undefined`). -/
def statsRereduce : List StatsResult → StatsResult
  | [] => { sum := 0, min := 0, max := 0, count := 0, sumsqr := 0 }
  | r :: rest =>
    rest.foldl
      (fun result current =>
        { sum := result.sum + current.sum,
          min := min result.min current.min,
          max := max result.max current.max,
          count := result.count + current.count,
          sumsqr := sumsqrHelper [result.sumsqr, current.sumsqr] })
      r

/-! ## Theorems -/

/-- Auxiliary for C8: folding `jsAdd` over numbers stays numeric addition. -/
theorem sumJs_on_nums (l : List Int) (a : Int) :
    (l.map Js.num).foldl jsAdd (.num a) = .num (l.foldl (· + ·) a) := by
  induction l generalizing a with
  | nil => rfl
  | cons x xs ih =>
    simp only [List.map_cons, List.foldl_cons]
    have : jsAdd (.num a) (.num x) = .num (a + x) := rfl
    rw [this, ih]

/-- C8: the `_sum` builtin (`sum`, src/index.js lines 739-748) returns the
numeric sum on a list of numeric values.  (This is the half of the claim
that holds; the component-wise array half is refuted by
`sum_on_arrays_concatenates`.) -/
theorem sum_numeric_values (l : List Int) :
    sumJs (l.map Js.num) = .num (l.foldl (· + ·) 0) :=
  sumJs_on_nums l 0

/-- C8 counterexample: on a list of arrays of numbers, `sum` does not
produce the component-wise sum — JavaScript `+` coerces the arrays to
strings, so `_sum([[1,2],[3,4]])` is the string `"01,23,4"`, not `[4,6]`. -/
theorem sum_on_arrays_concatenates :
    sumJs [.arr [.num 1, .num 2], .arr [.num 3, .num 4]] = .str "01,23,4"
    ∧ sumJs [.arr [.num 1, .num 2], .arr [.num 3, .num 4]] ≠ .arr [.num 4, .num 6] := by
  have hj12 : jsStrJoin [Js.num 1, Js.num 2] = "1,2" := by
    simp only [jsStrJoin, jsStrElem]
    rfl
  have hj34 : jsStrJoin [Js.num 3, Js.num 4] = "3,4" := by
    simp only [jsStrJoin, jsStrElem]
    rfl
  have h1 : jsAdd (.num 0) (.arr [.num 1, .num 2]) =
      .str ("0" ++ jsStrJoin [Js.num 1, Js.num 2]) := rfl
  have h2 : ∀ s : String, jsAdd (.str s) (.arr [.num 3, .num 4]) =
      .str (s ++ jsStrJoin [Js.num 3, Js.num 4]) := fun _ => rfl
  have he : sumJs [.arr [.num 1, .num 2], .arr [.num 3, .num 4]] = .str "01,23,4" := by
    show jsAdd (jsAdd (.num 0) (.arr [.num 1, .num 2])) (.arr [.num 3, .num 4]) = _
    rw [h1, h2, hj12, hj34]
    rfl
  refine ⟨he, ?_⟩
  intro h
  rw [he] at h
  exact Js.noConfusion h

/-- C5 (code bug): the built-in reducers do not commute with rereduce.
For `_stats`, the rereduce branch combines partial results with
`sumsqr([result.sumsqr, current.sumsqr])`, squaring the already squared
partial sums: partitioning `V = [2,2]` into `[2]` and `[2]` yields
`sumsqr = 4² + 4² = 32` instead of `8`.  For `_count`, the same
`values.length` body serves rereduce, so combining the partial counts of
`[10,20]` and `[30]` returns 2 (the number of partials), not 3. -/
theorem builtin_rereduce_not_commutative :
    statsRereduce [statsReduce [2], statsReduce [2]] ≠ statsReduce [2, 2]
    ∧ (statsRereduce [statsReduce [2], statsReduce [2]]).sumsqr = 32
    ∧ (statsReduce [2, 2]).sumsqr = 8
    ∧ countReduce [countReduce [(10 : Int), 20], countReduce [(30 : Int)]] = 2
    ∧ countReduce [(10 : Int), 20, 30] = 3 := by
  refine ⟨?_, by decide, by decide, rfl, rfl⟩
  intro h
  have hq := congrArg StatsResult.sumsqr h
  rw [show (statsRereduce [statsReduce [2], statsReduce [2]]).sumsqr = 32 from by decide,
    show (statsReduce [2, 2]).sumsqr = 8 from by decide] at hq
  exact absurd hq (by decide)

/-- C3 counterexample: a change whose `seq` equals the index's `lastSeq` at
the start of the run is not skipped — `processChange` tests
`doc.seq < index.seq` strictly, so the map function runs and the change's
batch is written (here the persisted `lastSeq` record moves from 3 to 5). -/
theorem change_at_lastSeq_is_processed :
    processChangeAction 5 { id := "a", seq := 5 } = .callMap
    ∧ (processOne 5
        { gotError := false, lastSeqVar := 5, persistedSeq := 3,
          numStarted := 0, numFinished := 0 }
        { id := "a", seq := 5 }).persistedSeq = 5 := by
  exact ⟨rfl, rfl⟩

/-- C3 (amended): a change whose `seq` is strictly below the index's
`lastSeq` at the start of the run is skipped entirely — `callMapFun` is not
reached and the updater state persists nothing for it. -/
theorem change_below_lastSeq_skipped (indexSeq : Nat) (c : Change)
    (s : UpdState) (h : c.seq < indexSeq) :
    processChangeAction indexSeq c ≠ .callMap
    ∧ (processOne indexSeq s c).persistedSeq = s.persistedSeq := by
  have ha : processChangeAction indexSeq c ≠ .callMap := by
    unfold processChangeAction
    by_cases hu : c.id.data.head? = some '_'
    · simp [hu]
    · simp [hu, h]
  refine ⟨ha, ?_⟩
  unfold processOne
  cases hx : processChangeAction indexSeq c with
  | skipUnderscore => rfl
  | skipSeq => rfl
  | callMap => exact absurd hx ha

/-- Witness for C3's amended theorem at a concrete skipped change. -/
theorem change_below_lastSeq_skipped_w :
    processChangeAction 5 { id := "a", seq := 3 } ≠ .callMap
    ∧ (processOne 5
        { gotError := false, lastSeqVar := 5, persistedSeq := 7,
          numStarted := 0, numFinished := 0 }
        { id := "a", seq := 3 }).persistedSeq = 7 :=
  change_below_lastSeq_skipped 5 { id := "a", seq := 3 }
    { gotError := false, lastSeqVar := 5, persistedSeq := 7,
      numStarted := 0, numFinished := 0 } (by decide)

/-- Auxiliary for C4: `processOne` never clears `gotError`. -/
theorem processOne_keeps_gotError (indexSeq : Nat) (s : UpdState) (c : Change)
    (h : s.gotError = true) : (processOne indexSeq s c).gotError = true := by
  unfold processOne
  cases processChangeAction indexSeq c with
  | skipUnderscore => exact h
  | skipSeq => exact h
  | callMap =>
    by_cases hf : c.fails
    · simp [hf]
    · simp [hf, h]

/-- Auxiliary for C4: once set, `gotError` survives the rest of the fold. -/
theorem foldl_keeps_gotError (indexSeq : Nat) (l : List Change) (s : UpdState)
    (h : s.gotError = true) :
    (l.foldl (processOne indexSeq) s).gotError = true := by
  induction l generalizing s with
  | nil => exact h
  | cons c cs ih => exact ih _ (processOne_keeps_gotError indexSeq s c h)

/-- Auxiliary for C4: a processed failing change sets `gotError` for good. -/
theorem foldl_gotError_of_failure (indexSeq : Nat) (l : List Change)
    (s : UpdState) (c : Change) (hm : c ∈ l)
    (hu : c.id.data.head? ≠ some '_') (hs : ¬ c.seq < indexSeq)
    (hf : c.fails = true) :
    (l.foldl (processOne indexSeq) s).gotError = true := by
  induction l generalizing s with
  | nil => cases hm
  | cons d ds ih =>
    rw [List.foldl_cons]
    rcases List.mem_cons.mp hm with hd | hd
    · subst hd
      apply foldl_keeps_gotError
      simp [processOne, processChangeAction, hu, hs, hf]
    · exact ih _ hd

/-- C4 (amended): when processing some delivered change fails, the run
reports the error to the waiting caller and the in-memory `index.seq` keeps
its pre-run value (`checkComplete` assigns it only on the error-free path). -/
theorem update_failure_reports_and_keeps_memSeq (indexSeq persisted0 : Nat)
    (changes : List Change) (c : Change) (hm : c ∈ changes)
    (hu : c.id.data.head? ≠ some '_') (hs : ¬ c.seq < indexSeq)
    (hf : c.fails = true) :
    (runUpdate indexSeq persisted0 changes).reportedError = true
    ∧ (runUpdate indexSeq persisted0 changes).memSeq = indexSeq := by
  have hg := foldl_gotError_of_failure indexSeq changes
    { gotError := false, lastSeqVar := indexSeq, persistedSeq := persisted0,
      numStarted := 0, numFinished := 0 } c hm hu hs hf
  unfold runUpdate
  rw [if_pos hg]
  exact ⟨rfl, rfl⟩

/-- Witness for C4's amended theorem at a concrete failing run. -/
theorem update_failure_reports_and_keeps_memSeq_w :
    (runUpdate 0 0 [{ id := "a", seq := 1, fails := true }]).reportedError = true
    ∧ (runUpdate 0 0 [{ id := "a", seq := 1, fails := true }]).memSeq = 0 :=
  update_failure_reports_and_keeps_memSeq 0 0 _
    { id := "a", seq := 1, fails := true } (List.mem_singleton.mpr rfl)
    (by decide) (by decide) rfl

/-- C4 counterexample: the persisted `_local/lastSeq` does not keep its
pre-run value on a failed update — every successfully committed per-change
batch rewrites it, even after an earlier change failed.  Here change 1
fails, yet the later change 2 commits and leaves the persisted `lastSeq`
at 2 (it was 0), past even the failed change. -/
theorem update_failure_advances_persisted_seq :
    runUpdate 0 0 [{ id := "a", seq := 1, fails := true }, { id := "b", seq := 2 }] =
      { reportedError := true, completedOk := false, memSeq := 0, persistedSeq := 2 }
    ∧ (2 : Nat) ≠ 0 := by
  exact ⟨rfl, by decide⟩

/-- C2: the scan bounds handed to the secondary store for a keyless query:
a `startkey` bound `b` is encoded `ts [b]` and an `endkey` bound
`ts [b, {}, {}, {}]` when `descending` is false; with `descending` true the
two encodings swap sides; a `key` option sets both bounds accordingly; the
scan direction is the query's `descending`. -/
theorem scan_bounds_encoding (ts : Js → String) (opts : QueryOpts) :
    ((opts.key = none →
        (planIndexOpts ts opts).startkey = opts.startkey.map (fun b =>
          if opts.descending then ts (.arr [b, .obj [], .obj [], .obj []])
          else ts (.arr [b]))
        ∧ (planIndexOpts ts opts).endkey = opts.endkey.map (fun b =>
          if opts.descending then ts (.arr [b])
          else ts (.arr [b, .obj [], .obj [], .obj []])))
      ∧ (∀ k, opts.key = some k →
        (planIndexOpts ts opts).startkey = some
          (if opts.descending then ts (.arr [k, .obj [], .obj [], .obj []])
           else ts (.arr [k]))
        ∧ (planIndexOpts ts opts).endkey = some
          (if opts.descending then ts (.arr [k])
           else ts (.arr [k, .obj [], .obj [], .obj []]))))
    ∧ (planIndexOpts ts opts).descending = opts.descending := by
  unfold planIndexOpts
  cases hk : opts.key <;> cases hs : opts.startkey <;> cases he : opts.endkey <;>
    cases hd : opts.descending <;> simp

/-- Witness for C2 at a concrete descending range query. -/
theorem scan_bounds_encoding_w :
    (planIndexOpts tsm { startkey := some (.str "b"),
                         endkey := some (.str "a"),
                         descending := true }).startkey =
      some (tsm (.arr [.str "b", .obj [], .obj [], .obj []]))
    ∧ (planIndexOpts tsm { startkey := some (.str "b"),
                           endkey := some (.str "a"),
                           descending := true }).endkey =
      some (tsm (.arr [.str "a"])) := by
  have h := ((scan_bounds_encoding tsm
    { startkey := some (.str "b"),
      endkey := some (.str "a"),
      descending := true }).1.1 rfl)
  simpa using h

/-- Auxiliary for C6: `opts.reduce !== false` holds whenever the option is
not literally `false`. -/
theorem reduceNotStrictFalse_of_ne (r : Option Js)
    (h : r ≠ some (.bool false)) : reduceNotStrictFalse r = true := by
  unfold reduceNotStrictFalse
  cases r with
  | none => rfl
  | some v =>
    cases v with
    | bool b =>
      cases b with
      | false => exact absurd rfl h
      | true => rfl
    | null => rfl
    | num _ => rfl
    | str _ => rfl
    | arr _ => rfl
    | obj _ => rfl
    | err _ => rfl

/-- C6: a query whose (descending-adjusted) `startkey` collates after its
`endkey`, and a query combining an effective reducer with `include_docs`,
are rejected by `checkQueryParseError` with a `query_parse_error` of status
400 — and the whole persisted-view pipeline returns exactly that error, for
every store (so no scan can have been consulted). -/
theorem query_parse_error_rejects (ts : Js → String) (index : IndexModel)
    (opts : QueryOpts) (store : List (String × Row))
    (sourceGet : String → Option Js)
    (h : (∃ s e, (if opts.descending then opts.endkey else opts.startkey) = some s
          ∧ (if opts.descending then opts.startkey else opts.endkey) = some e
          ∧ collate s e > 0)
       ∨ (index.reduceFun.isSome = true ∧ opts.reduce ≠ some (.bool false)
          ∧ opts.include_docs = true)) :
    (checkQueryParseError opts index.reduceFun.isSome).map QueryParseError.status
        = some 400
    ∧ (checkQueryParseError opts index.reduceFun.isSome).map QueryParseError.name
        = some "query_parse_error"
    ∧ queryPersisted ts index opts store sourceGet =
        .error (((checkQueryParseError opts index.reduceFun.isSome).getD
          { message := "" }).toJs) := by
  have key : checkQueryParseError opts index.reduceFun.isSome =
        some { message := rangeErrMsg }
      ∨ checkQueryParseError opts index.reduceFun.isSome =
        some { message := includeDocsErrMsg } := by
    rcases h with ⟨s, e, hs, he, hc⟩ | ⟨hr, hrf, hi⟩
    · left
      simp [checkQueryParseError, hs, he, hc]
    · have hcheck : includeDocsReduceCheck opts index.reduceFun.isSome =
          some { message := includeDocsErrMsg } := by
        simp [includeDocsReduceCheck, hr, reduceNotStrictFalse_of_ne _ hrf, hi]
      cases hsk : (if opts.descending then opts.endkey else opts.startkey) with
      | none =>
        right
        simp [checkQueryParseError, hsk, hcheck]
      | some s =>
        cases hek : (if opts.descending then opts.startkey else opts.endkey) with
        | none =>
          right
          simp [checkQueryParseError, hsk, hek, hcheck]
        | some e =>
          by_cases hgt : collate s e > 0
          · left
            simp [checkQueryParseError, hsk, hek, hgt]
          · right
            simp [checkQueryParseError, hsk, hek, hgt, hcheck]
  rcases key with hm | hm <;>
    exact ⟨by rw [hm]; rfl, by rw [hm]; rfl,
           by unfold queryPersisted; rw [hm]; rfl⟩

/-- Witness for C6 at a concrete `include_docs`-with-reduce query (no range
bounds, so the reduce check fires). -/
theorem query_parse_error_rejects_w :
    (checkQueryParseError { include_docs := true }
        (IndexModel.reduceFun { reduceFun := some fun _ _ _ => Js.null }).isSome).map
      QueryParseError.status = some 400
    ∧ (checkQueryParseError { include_docs := true }
        (IndexModel.reduceFun { reduceFun := some fun _ _ _ => Js.null }).isSome).map
      QueryParseError.name = some "query_parse_error"
    ∧ queryPersisted tsm { reduceFun := some fun _ _ _ => Js.null }
        { include_docs := true } [] (fun _ => none) =
        .error (((checkQueryParseError { include_docs := true }
          (IndexModel.reduceFun { reduceFun := some fun _ _ _ => Js.null }).isSome).getD
          { message := "" }).toJs) :=
  query_parse_error_rejects tsm { reduceFun := some fun _ _ _ => Js.null }
    { include_docs := true } [] (fun _ => none)
    (Or.inr ⟨rfl, by simp, rfl⟩)

/-- Auxiliary for C1: assigning a property whose key is not yet present
appends it. -/
theorem objAssign_of_fresh (m : List (String × KvRecord)) (k : String)
    (v : KvRecord) (h : k ∉ m.map Prod.fst) :
    objAssign m k v = m ++ [(k, v)] := by
  have hany : m.any (fun p => p.1 = k) = false := by
    rw [List.any_eq_false]
    intro p hp
    simp only [decide_eq_true_eq]
    intro hk
    exact h (List.mem_map.mpr ⟨p, hp, hk⟩)
  simp [objAssign, hany]

/-- Auxiliary for C1: when the keys generated from position `i` on are
mutually distinct and absent from the accumulated object, the emit loop
appends one entry per emit, keyed by its own composite key. -/
theorem emitLoop_fresh (ts : Js → String) (docId : String)
    (l : List (Js × Js)) :
    ∀ (i : Nat) (m : List (String × KvRecord)),
    ((l.enumFrom i).map fun p => emitKeyAt ts docId p.2 p.1).Nodup →
    (∀ s ∈ (l.enumFrom i).map fun p => emitKeyAt ts docId p.2 p.1,
        s ∉ m.map Prod.fst) →
    emitLoop ts docId l i m =
      m ++ (l.enumFrom i).map fun p =>
        (emitKeyAt ts docId p.2 p.1,
         { id := docId, key := normalizeKey p.2.1,
           value := normalizeKey p.2.2 }) := by
  induction l with
  | nil => intro i m _ _; simp [emitLoop]
  | cons kv rest ih =>
    intro i m hnd hdisj
    obtain ⟨k, v⟩ := kv
    rw [List.enumFrom_cons] at hnd hdisj ⊢
    simp only [List.map_cons] at hnd hdisj ⊢
    have hfresh : emitKeyAt ts docId (k, v) i ∉ m.map Prod.fst :=
      hdisj _ (List.mem_cons_self _ _)
    have hstep : emitLoop ts docId ((k, v) :: rest) i m =
        emitLoop ts docId rest (i + 1)
          (objAssign m (ts (.arr [k, .str docId, v, .num i]))
            { id := docId, key := normalizeKey k, value := normalizeKey v }) := rfl
    rw [hstep]
    have hkey : ts (.arr [k, .str docId, v, .num i]) = emitKeyAt ts docId (k, v) i := rfl
    rw [hkey, objAssign_of_fresh _ _ _ hfresh]
    rw [ih (i + 1) _ hnd.of_cons ?_]
    · simp
    · intro s hs
      simp only [List.map_append, List.map_cons, List.map_nil, List.mem_append,
        List.mem_singleton]
      rintro (hin | hk0)
      · exact hdisj s (List.mem_cons_of_mem _ hs) hin
      · rw [hk0] at hs
        exact (List.nodup_cons.mp hnd).1 hs

/-- C1: for every emit performed while updating a persisted index, the
`_id` under which the key/value record is stored equals
`toIndexableString([key, docId, value, emitIndex])` — `emitIndex` being the
0-based position of the emit within the map invocation — and the record is
`{id: docId, key: normalizeKey key, value: normalizeKey value}`.  (The
hypothesis that the generated composite keys are distinct holds for the
real injective codec; distinct emit indices then give distinct keys.) -/
theorem emit_composite_keys (ts : Js → String) (docId : String)
    (emits : List (Js × Js)) (h : (emitKeys ts docId emits).Nodup) :
    indexableKeysToKeyValues ts docId emits =
      emits.enum.map fun p =>
        (emitKeyAt ts docId p.2 p.1,
         { id := docId, key := normalizeKey p.2.1,
           value := normalizeKey p.2.2 }) := by
  have hd : ∀ s ∈ (emits.enumFrom 0).map
      (fun p => emitKeyAt ts docId p.2 p.1), s ∉ ([] : List (String × KvRecord)).map Prod.fst := by
    intro s _ hs
    simp at hs
  have hnd : ((emits.enumFrom 0).map fun p => emitKeyAt ts docId p.2 p.1).Nodup := h
  have := emitLoop_fresh ts docId emits 0 [] hnd hd
  simpa [indexableKeysToKeyValues] using this

/-- Witness for C1: a document emitting the same `(key, value)` pair twice
still produces two records, keyed by the emit positions 0 and 1. -/
theorem emit_composite_keys_w :
    (emitKeys tsm "d" [(.num 1, .num 2), (.num 1, .num 2)]).Nodup
    ∧ indexableKeysToKeyValues tsm "d" [(.num 1, .num 2), (.num 1, .num 2)] =
      [(emitKeyAt tsm "d" (.num 1, .num 2) 0,
        { id := "d", key := .num 1, value := .num 2 }),
       (emitKeyAt tsm "d" (.num 1, .num 2) 1,
        { id := "d", key := .num 1, value := .num 2 })] := by
  have hk0 : emitKeyAt tsm "d" (Js.num 1, Js.num 2) 0 = "641;5d\x0042;40;\x00" := by
    simp only [emitKeyAt, tsm, tsmList]
    rfl
  have hk1 : emitKeyAt tsm "d" (Js.num 1, Js.num 2) 1 = "641;5d\x0042;41;\x00" := by
    simp only [emitKeyAt, tsm, tsmList]
    rfl
  have hnd : (emitKeys tsm "d" [(.num 1, .num 2), (.num 1, .num 2)]).Nodup := by
    simp only [emitKeys, List.enum]
    rw [List.enumFrom_cons, List.enumFrom_cons]
    simp only [List.enumFrom_nil, List.map_cons, List.map_nil, hk0, hk1]
    simp only [List.nodup_cons, List.mem_singleton, List.not_mem_nil,
      List.nodup_nil, and_true, not_false_eq_true]
    decide
  refine ⟨hnd, ?_⟩
  have h := emit_composite_keys tsm "d" [(.num 1, .num 2), (.num 1, .num 2)] hnd
  rw [h]
  simp [List.enum, List.enumFrom_cons, normalizeKey]

/-- Auxiliary: everything in a slice was in the original list. -/
theorem mem_of_mem_sliceRows {l : List Row} {skip : Nat} {limit : Option Nat}
    {r : Row} (h : r ∈ sliceRows l skip limit) : r ∈ l := by
  unfold sliceRows at h
  cases limit with
  | some n => exact List.drop_subset _ _ (List.take_subset _ _ h)
  | none => exact List.drop_subset _ _ h

/-- Auxiliary for C7: a successful `reduceIndex` answer has no
`total_rows`, no `offset`, and rows carrying only `key` and `value`. -/
theorem reduceIndex_ok_shape (index : IndexModel) (results : List Row)
    (options : QueryOpts) (res : QueryResult)
    (h : reduceIndex index results options = .ok res) :
    res.total_rows = none ∧ res.offset = none ∧
    ∀ r ∈ res.rows, r.id = none ∧ r.reduceOutput = none ∧ r.doc = none := by
  simp only [reduceIndex] at h
  split at h
  · exact absurd h (by simp)
  · injection h with h
    subst h
    refine ⟨rfl, rfl, ?_⟩
    intro r hr
    obtain ⟨p, _, hpr⟩ := List.mem_map.mp (mem_of_mem_sliceRows hr)
    rw [← hpr]
    exact ⟨rfl, rfl, rfl⟩

/-- Auxiliary for C7: the same for the temporary path's reduce branch. -/
theorem viewQueryFinish_ok_shape (rf : Js → List Js → Bool → Js)
    (options : QueryOpts) (sortedResults : List Row) (totalRows : Nat)
    (res : QueryResult)
    (h : viewQueryFinish rf options false sortedResults totalRows = .ok res) :
    res.total_rows = none ∧ res.offset = none ∧
    ∀ r ∈ res.rows, r.id = none ∧ r.reduceOutput = none ∧ r.doc = none := by
  simp only [viewQueryFinish, Bool.false_eq_true, if_false] at h
  split at h
  · exact absurd h (by simp)
  · injection h with h
    subst h
    refine ⟨rfl, rfl, ?_⟩
    intro r hr
    obtain ⟨p, _, hpr⟩ := List.mem_map.mp (mem_of_mem_sliceRows hr)
    rw [← hpr]
    exact ⟨rfl, rfl, rfl⟩

/-- C7: when reduction is in effect, a successful query result consists
only of a rows array of `{key, value}` entries — no `total_rows` and no
`offset` — both on the persisted-view executor and on the temporary-view
completion. -/
theorem reduce_result_no_total_rows :
    (∀ (ts : Js → String) (index : IndexModel) (opts : QueryOpts)
        (store : List (String × Row)) (sourceGet : String → Option Js)
        (res : QueryResult),
      shouldReduce index opts = true →
      queryIndexNoKeys ts index opts store sourceGet = .ok res →
      res.total_rows = none ∧ res.offset = none ∧
        ∀ r ∈ res.rows, r.id = none ∧ r.reduceOutput = none ∧ r.doc = none)
    ∧ (∀ (fhr : Bool) (rf : Js → List Js → Bool → Js) (options : QueryOpts)
        (sortedResults : List Row) (totalRows : Nat) (res : QueryResult),
      tempReduceIsFalse fhr options = false →
      viewQueryFinish rf options (tempReduceIsFalse fhr options)
          sortedResults totalRows = .ok res →
      res.total_rows = none ∧ res.offset = none ∧
        ∀ r ∈ res.rows, r.id = none ∧ r.reduceOutput = none ∧ r.doc = none) := by
  constructor
  · intro ts index opts store sourceGet res hsr h
    simp only [queryIndexNoKeys, hsr, Bool.not_true, Bool.false_eq_true, if_false,
      onMapResultsReady, if_true] at h
    exact reduceIndex_ok_shape _ _ _ _ h
  · intro fhr rf options sortedResults totalRows res hf h
    rw [hf] at h
    exact viewQueryFinish_ok_shape _ _ _ _ _ h

/-- Witness for C7 at a concrete one-row reduced query (both paths). -/
theorem reduce_result_no_total_rows_w :
    (({ rows := [{ key := Js.null, value := Js.num 1 }] } : QueryResult).total_rows = none
      ∧ ({ rows := [{ key := Js.null, value := Js.num 1 }] } : QueryResult).offset = none)
    ∧ (({ rows := [{ key := Js.null, value := Js.num 7 }] } : QueryResult).total_rows = none
      ∧ ({ rows := [{ key := Js.null, value := Js.num 7 }] } : QueryResult).offset = none) := by
  have h1 := reduce_result_no_total_rows.1 tsm
    { reduceFun := some fun _ _ _ => Js.null } {}
    [("k", { id := some "a", key := .str "a", value := .num 1,
             reduceOutput := some (.num 1) })]
    (fun _ => none)
    { rows := [{ key := Js.null, value := Js.num 1 }] } rfl rfl
  have h2 := reduce_result_no_total_rows.2 true (fun _ _ _ => Js.num 7) {}
    [{ id := some "a", key := .str "a", value := .num 1 }] 1
    { rows := [{ key := Js.null, value := Js.num 7 }] } rfl rfl
  exact ⟨⟨h1.1, h1.2.1⟩, ⟨h2.1, h2.2.1⟩⟩

/-- Auxiliary for C9: `reduceIndex` under `limit: 0` can only answer an
empty rows array. -/
theorem reduceIndex_limit_zero (index : IndexModel) (results : List Row)
    (options : QueryOpts) (res : QueryResult) (hl : options.limit = some 0)
    (h : reduceIndex index results options = .ok res) : res.rows = [] := by
  simp only [reduceIndex] at h
  split at h
  · exact absurd h (by simp)
  · injection h with h
    subst h
    simp [sliceRows, hl]

/-- C9 (amended): a persisted-view query with `keys: []` is normalized to
`limit: 0` with the `keys` option removed and runs the normal scan path;
when reduction is not in effect it succeeds with an empty rows array (and
the usual `total_rows`/`offset`), and in every case a successful answer has
empty rows.  (When reducing, the scan is unbounded and the group reduction
still runs, so a reduce error — see the counterexample — can still fail the
query before the empty slice is taken.) -/
theorem empty_keys_query (ts : Js → String) (index : IndexModel)
    (opts : QueryOpts) (store : List (String × Row))
    (sourceGet : String → Option Js) (hk : opts.keys = some []) :
    (shouldReduce index opts = false →
      queryIndexNoKeys ts index opts store sourceGet =
        .ok { total_rows := some store.length, offset := some opts.skip,
              rows := [] })
    ∧ (∀ res, queryIndexNoKeys ts index opts store sourceGet = .ok res →
        res.rows = []) := by
  have hmain : shouldReduce index opts = false →
      queryIndexNoKeys ts index opts store sourceGet =
        .ok { total_rows := some store.length, offset := some opts.skip,
              rows := [] } := by
    intro hsr
    simp [queryIndexNoKeys, hk, hsr, allDocsScan, fetchFromIndex,
      onMapResultsReady]
  refine ⟨hmain, ?_⟩
  intro res h
  by_cases hsr : shouldReduce index opts
  · simp only [queryIndexNoKeys, hk, hsr, Bool.not_true, Bool.false_eq_true,
      if_false, onMapResultsReady, if_true] at h
    exact reduceIndex_limit_zero _ _ _ _ (by simp) h
  · rw [Bool.not_eq_true] at hsr
    rw [hmain hsr] at h
    injection h with h
    rw [← h]

/-- Witness for C9's amended theorem at a concrete non-reducing query. -/
theorem empty_keys_query_w :
    queryIndexNoKeys tsm { reduceFun := none } { keys := some [] }
      [("k", { id := some "a", key := .str "a", value := .num 1 })]
      (fun _ => none) =
      .ok { total_rows := some 1, offset := some 0, rows := [] } :=
  (empty_keys_query tsm { reduceFun := none } { keys := some [] }
    [("k", { id := some "a", key := .str "a", value := .num 1 })]
    (fun _ => none) rfl).1 rfl

/-- C9 counterexample: with a reducer in effect, a `keys: []` query is not
guaranteed to succeed — the unbounded scan still groups and checks the
stored `reduceOutput`s, so a stored value whose `sumsqr` carries
`status: 500` (as the `_stats` builtin produces on non-numeric input, and
as a user reducer may return) fails the whole query instead of returning
`{rows: []}`. -/
theorem empty_keys_query_cx :
    queryIndexNoKeys tsm { reduceFun := some fun _ _ _ => Js.null }
      { keys := some [] }
      [("k1", { id := some "a", key := .str "a", value := .str "x",
                reduceOutput := some (.obj [("sumsqr",
                  .err [("name", .str "invalid_value"), ("status", .num 500)])]) })]
      (fun _ => none) =
      .error (.obj [("sumsqr",
        .err [("name", .str "invalid_value"), ("status", .num 500)])]) := rfl

/-- Auxiliary for C10: the non-reduce branch of `onMapResultsReady` never
returns a row with a `reduceOutput` field. -/
theorem onMapResultsReady_noreduce_rows (index : IndexModel)
    (opts : QueryOpts) (skip totalRows : Nat)
    (sourceGet : String → Option Js) (results : List Row) (res : QueryResult)
    (h : onMapResultsReady index opts false skip totalRows sourceGet results
        = .ok res) :
    ∀ r ∈ res.rows, r.reduceOutput = none := by
  simp only [onMapResultsReady, Bool.false_eq_true, if_false] at h
  injection h with h
  subst h
  intro r hr
  simp only at hr
  split at hr
  · obtain ⟨r1, hr1, hat⟩ := List.mem_map.mp hr
    obtain ⟨r0, _, hcl⟩ := List.mem_map.mp hr1
    rw [← hat]
    cases hs : sourceGet (joinDocId r1) with
    | some d => simp only [hs, ← hcl]
    | none =>
      simp only [hs]
      rw [← hcl]
  · obtain ⟨r0, _, hcl⟩ := List.mem_map.mp hr
    rw [← hcl]

/-- C10: when reduction is not in effect, no returned row carries a
`reduceOutput` field — the executor deletes it from every scanned record
(both directly through `onMapResultsReady`, which all scan paths funnel
into, and end-to-end through the keyless executor). -/
theorem no_reduce_strips_reduceOutput :
    (∀ (index : IndexModel) (opts : QueryOpts) (skip totalRows : Nat)
        (sourceGet : String → Option Js) (results : List Row)
        (res : QueryResult),
      onMapResultsReady index opts false skip totalRows sourceGet results
          = .ok res →
      ∀ r ∈ res.rows, r.reduceOutput = none)
    ∧ (∀ (ts : Js → String) (index : IndexModel) (opts : QueryOpts)
        (store : List (String × Row)) (sourceGet : String → Option Js)
        (res : QueryResult),
      shouldReduce index opts = false →
      queryIndexNoKeys ts index opts store sourceGet = .ok res →
      ∀ r ∈ res.rows, r.reduceOutput = none) := by
  refine ⟨onMapResultsReady_noreduce_rows, ?_⟩
  intro ts index opts store sourceGet res hsr h
  simp only [queryIndexNoKeys, hsr, Bool.not_false, if_true] at h
  exact onMapResultsReady_noreduce_rows _ _ _ _ _ _ _ h

/-- Witness for C10 at a concrete stored record carrying a `reduceOutput`. -/
theorem no_reduce_strips_reduceOutput_w :
    ({ id := some "a", key := Js.null, value := Js.null } : Row).reduceOutput
      = none :=
  no_reduce_strips_reduceOutput.1 { reduceFun := none } {} 0 1 (fun _ => none)
    [{ id := some "a", reduceOutput := some .null }]
    { total_rows := some 1, offset := some 0,
      rows := [{ id := some "a", key := Js.null, value := Js.null }] }
    rfl
    { id := some "a", key := Js.null, value := Js.null }
    (List.mem_singleton.mpr rfl)

end MapReduce
